import Mathlib

/-!
Verification of the resource-collection core of `main.py` (gcp-resource-collector).

The source is shallowly embedded: Python strings are `List Char`, Python floats
are exact rationals (`Rat`), Python dicts are association lists with in-place
update, and the lazily-paged cloud API listings are modelled by the finite
prefix of items a listing yields together with a flag recording whether the
iteration then raised.  Every `try/except` of the source is reflected in the
control flow of the corresponding definition.

One modelling choice must be called out: the collection functions
(`get_compute_resources`, `get_instance_disks`, `get_snapshot_usage`,
`get_gcs_usage`) are written at module level in the source (they are dedented
out of the `GCPResourceCollector` class) although they take `self` and are
invoked as methods (`collector.get_compute_resources()` on line 331,
`self.get_instance_disks(...)` on line 106).  As written those attribute
lookups raise `AttributeError`.  The embedding models the evident intent —
that they are methods of the collector — and the dedent itself is reported as
a code bug where it is decisive.
-/

/-- Characters of a string literal; resource names and machine types are
modelled as `List Char` so that the splitting and substring logic of the source
is explicit. -/
def chars (s : String) : List Char := s.data

/-- Python `str.split(sep)` for a one-character separator. -/
def splitC (sep : Char) : List Char → List (List Char)
  | [] => [[]]
  | c :: cs =>
    match splitC sep cs with
    | [] => [[]]
    | g :: gs => if c = sep then [] :: g :: gs else (c :: g) :: gs

/-- Whether `p` is an initial run of `s` (helper for the substring test). -/
def leadsWith : List Char → List Char → Bool
  | [], _ => true
  | _ :: _, [] => false
  | p :: ps, c :: cs => p == c && leadsWith ps cs

/-- Python `pat in s`: contiguous substring containment. -/
def hasSub (pat : List Char) : List Char → Bool
  | [] => pat.isEmpty
  | c :: cs => leadsWith pat (c :: cs) || hasSub pat cs

/-- Numeric value of a digit string. -/
def digitsVal (l : List Char) : Nat :=
  l.foldl (fun a c => 10 * a + (c.toNat - 48)) 0

/-- Python `int(str)` on the inputs arising here: defined on non-empty all-digit
strings, `none` (a `ValueError`) otherwise.  Signs, whitespace and underscores
are not modelled; no such input occurs in the verified statements. -/
def pyInt (l : List Char) : Option Int :=
  if l ≠ [] ∧ (l.all fun c => c.isDigit) = true then some (digitsVal l : Int) else none

/-- Python `round(x, 2)` on the exact rationals of the model.  (Python rounds
the nearest double half-to-even; ties never arise in the verified statements,
so half-up rational rounding is used.) -/
def round2 (x : Rat) : Rat := ((x * 100 + 1 / 2).floor : Rat) / 100

/-- Python truthiness of an optional integer field (absent or zero is falsy). -/
def truthyNat : Option Nat → Bool
  | none => false
  | some n => n != 0

/-- Python truthiness of an optional numeric field (absent or zero is falsy). -/
def truthyRat : Option Rat → Bool
  | none => false
  | some q => q != 0

/-- First-match lookup in the Python-dict model (keys are unique by
construction). -/
def dictGet (d : List (List Char × Rat)) (k : List Char) : Option Rat :=
  match d with
  | [] => none
  | (k', v) :: rest => if k' = k then some v else dictGet rest k

/-- Python `d[k] = v`: replace the value in place when the key exists (keys are
unique, so updating the first occurrence is exact), append a new binding
otherwise. -/
def dictSet (d : List (List Char × Rat)) (k : List Char) (v : Rat) :
    List (List Char × Rat) :=
  match d with
  | [] => [(k, v)]
  | (k', v') :: rest => if k' = k then (k', v) :: rest else (k', v') :: dictSet rest k v

/-- Python `d[k] += v` (the source only applies it to keys already present). -/
def dictAdd (d : List (List Char × Rat)) (k : List Char) (v : Rat) :
    List (List Char × Rat) :=
  d.map fun p => if p.1 = k then (p.1, p.2 + v) else p

/-- Python `', '.join`. -/
def joinCommaSpace : List (List Char) → List Char
  | [] => []
  | [x] => x
  | x :: xs => x ++ ',' :: ' ' :: joinCommaSpace xs

/-- Python `', '.join(ips) if ips else 'None'` (lines 115-116 of the source). -/
def displayIPs (ips : List (List Char)) : List Char :=
  if ips = [] then chars "None" else joinCommaSpace ips

instance {ε α : Type} [DecidableEq ε] [DecidableEq α] : DecidableEq (Except ε α) :=
  fun x y =>
    match x, y with
    | .error a, .error b =>
      if h : a = b then .isTrue (h ▸ rfl) else .isFalse fun hc => h (Except.error.inj hc)
    | .ok a, .ok b =>
      if h : a = b then .isTrue (h ▸ rfl) else .isFalse fun hc => h (Except.ok.inj hc)
    | .error _, .ok _ => .isFalse fun hc => Except.noConfusion hc
    | .ok _, .error _ => .isFalse fun hc => Except.noConfusion hc

/-- An access configuration of a network interface (`nat_i_p` is the external
address; `none` models an absent or empty, i.e. falsy, field). -/
structure AccessConfig where
  nat_i_p : Option (List Char)
deriving DecidableEq

/-- A network interface of an instance (`network_i_p` is the internal
address). -/
structure NetworkInterface where
  network_i_p : Option (List Char)
  access_configs : List AccessConfig
deriving DecidableEq

/-- An attached-disk reference as it appears on an instance object. -/
structure AttachedDisk where
  source : Option (List Char)
  type_ : Option (List Char)
  disk_size_gb : Option Rat
deriving DecidableEq

/-- A compute instance as returned by the instance listing. -/
structure Instance where
  name : Option (List Char)
  status : Option (List Char)
  machine_type : List Char
  network_interfaces : List NetworkInterface
  disks : List AttachedDisk
deriving DecidableEq

/-- The detail record returned by the per-disk `get` call. -/
structure DiskDetail where
  type : List Char
  size_gb : Option Rat
  size_bytes : Option Rat
deriving DecidableEq

/-- A snapshot as returned by the snapshot listing. -/
structure Snapshot where
  storage_bytes : Option Nat
  disk_size_gb : Option Rat
deriving DecidableEq

/-- An object inside a bucket. -/
structure Blob where
  size : Option Nat
deriving DecidableEq

/-- A bucket as returned by the bucket listing. -/
structure Bucket where
  name : List Char
deriving DecidableEq

/-- A zone as returned by the zone listing. -/
structure Zone where
  name : List Char
deriving DecidableEq

/-- The outcome of iterating a lazily-paged cloud listing: the items it yielded
in order, and whether the iteration then raised instead of ending normally. -/
structure Paged (α : Type) where
  items : List α
  failed : Bool
deriving DecidableEq

/-- The remote cloud API, fixed for one run: every listing and lookup the
collector performs, with its failure disposition. -/
structure Env where
  zones : Paged Zone
  instancesIn : List Char → Paged Instance
  diskGet : List Char → List Char → Except Unit DiskDetail
  snapshots : Paged Snapshot
  buckets : Paged Bucket
  blobsIn : List Char → Paged Blob

/-- One per-instance output row of `get_compute_resources` (lines 108-118). -/
structure InstanceRecord where
  name : List Char
  zone : List Char
  machine_type : List Char
  status : List Char
  cpu : Rat
  memory_gb : Rat
  private_ips : List Char
  public_ips : List Char
  disks : List (List Char × Rat)
deriving DecidableEq

/-- The assembled result dictionary of `main` (lines 340-346); the timestamp is
owned by an external collaborator and not modelled. -/
structure RunResult where
  project_id : List Char
  instances : List InstanceRecord
  snapshot_total_gb : Rat
  gcs_usage : List (List Char × Rat)
deriving DecidableEq

/-- `get_machine_specs` (source lines 17-52).  `Except.error` is the uncaught
`ValueError` that `int(parts[-1])` on line 33 raises; the `Option` in the ok
outcome is the `None` its caller tests for on line 84 (the function itself
never produces it). -/
def get_machine_specs (machine_type : List Char) : Except Unit (Option (Rat × Rat)) :=
  if machine_type = chars "e2-micro" then .ok (some (1 / 4, 1))
  else if machine_type = chars "e2-small" then .ok (some (1 / 2, 2))
  else if machine_type = chars "e2-medium" then .ok (some (1, 4))
  else
    let parts := splitC '-' machine_type
    if parts.length < 3 then .ok (some (2, 8))
    else
      match pyInt (parts.getLastD []) with
      | none => .error ()
      | some custom_memory =>
        match pyInt (parts.getD 2 []) with
        | none => .ok (some (2, 8))
        | some cpu_count =>
          let memory_gb : Rat :=
            if hasSub (chars "standard") machine_type then (cpu_count : Rat) * 4
            else if hasSub (chars "highmem") machine_type then (cpu_count : Rat) * 8
            else if hasSub (chars "highcpu") machine_type then (cpu_count : Rat) * 1
            else if hasSub (chars "custom") machine_type then (custom_memory : Rat) / 1024
            else (cpu_count : Rat) * 4
          .ok (some ((cpu_count : Rat), memory_gb))

/-- The zero-initialized disk breakdown of `get_instance_disks` (lines 129-134). -/
def init_disks_info : List (List Char × Rat) :=
  [(chars "pd-standard", 0), (chars "pd-balanced", 0), (chars "pd-ssd", 0),
   (chars "local-ssd", 0)]

/-- One iteration of the per-disk loop of `get_instance_disks` (lines 138-178).
A failing per-disk `get` is caught by the inner `except` and contributes
nothing. -/
def disk_step (env : Env) (zone_name : List Char) (disks_info : List (List Char × Rat))
    (disk : AttachedDisk) : List (List Char × Rat) :=
  match disk.source with
  | some src =>
    let disk_name := (splitC '/' src).getLastD []
    match env.diskGet zone_name disk_name with
    | .error _ => disks_info
    | .ok disk_detail =>
      let disk_type := (splitC '/' disk_detail.type).getLastD []
      match (match disk_detail.size_gb with
             | some g => some g
             | none =>
               match disk_detail.size_bytes with
               | some b => some (b / 2 ^ 30)
               | none => none) with
      | none => disks_info
      | some raw =>
        let size_gb := round2 raw
        if (dictGet disks_info disk_type).isSome then dictAdd disks_info disk_type size_gb
        else disks_info
  | none =>
    if disk.type_ = some (chars "SCRATCH") then
      let local_ssd_size := disk.disk_size_gb.getD 375
      dictAdd disks_info (chars "local-ssd") (round2 local_ssd_size)
    else disks_info

/-- `get_instance_disks` (lines 127-187): fold the per-disk loop over the
zero-initialized breakdown, then round every value to 2 decimals (lines
184-185). -/
def get_instance_disks (env : Env) (inst : Instance) (zone_name : List Char) :
    List (List Char × Rat) :=
  (inst.disks.foldl (disk_step env zone_name) init_disks_info).map fun p =>
    (p.1, round2 p.2)

/-- Last segment of the machine-type URL (line 73). -/
def machineTypeOf (inst : Instance) : List Char :=
  (splitC '/' inst.machine_type).getLastD []

/-- First dash-separated segment of a machine type (line 74). -/
def seriesOf (machine_type : List Char) : List Char :=
  (splitC '-' machine_type).headD []

/-- The body of the per-instance loop of `get_compute_resources` (lines
69-120).  `Except.ok none` is a `continue` (unsupported series, or a `None`
spec); `Except.error` is a raised exception, which line 122 catches at the
whole-collection boundary. -/
def process_instance (env : Env) (zone_name : List Char) (inst : Instance) :
    Except Unit (Option InstanceRecord) :=
  let instance_name := inst.name.getD (chars "unknown")
  let instance_status := inst.status.getD (chars "unknown")
  let machine_type := machineTypeOf inst
  let series := seriesOf machine_type
  if series ∉ [chars "n2", chars "e2"] then Except.ok none
  else
    match get_machine_specs machine_type with
    | .error e => .error e
    | .ok none => .ok none
    | .ok (some (cpu_count, memory_gb)) =>
      let private_ips := inst.network_interfaces.filterMap fun ni => ni.network_i_p
      let public_ips :=
        (inst.network_interfaces.map fun ni =>
          ni.access_configs.filterMap fun ac => ac.nat_i_p).flatten
      let disks_info := get_instance_disks env inst zone_name
      Except.ok (some
        { name := instance_name
          zone := zone_name
          machine_type := machine_type
          status := instance_status
          cpu := cpu_count
          memory_gb := memory_gb
          private_ips := displayIPs private_ips
          public_ips := displayIPs public_ips
          disks := disks_info })

/-- The per-zone instance loop: processes instances in order, accumulating
records; a raised exception stops the whole collection (`true` in the second
component). -/
def collect_instances (env : Env) (zone_name : List Char) :
    List Instance → List InstanceRecord → List InstanceRecord × Bool
  | [], acc => (acc, false)
  | inst :: rest, acc =>
    match process_instance env zone_name inst with
    | .error _ => (acc, true)
    | .ok none => collect_instances env zone_name rest acc
    | .ok (some r) => collect_instances env zone_name rest (acc ++ [r])

/-- The zone loop of `get_compute_resources`: a raised exception while
processing an instance, or while iterating a zone's instance listing, aborts
the remaining zones (the single `except` on line 122 wraps the whole loop). -/
def collect_zones (env : Env) : List Zone → List InstanceRecord → List InstanceRecord
  | [], acc => acc
  | z :: zs, acc =>
    let p := env.instancesIn z.name
    let r := collect_instances env z.name p.items acc
    if r.2 then r.1
    else if p.failed then r.1
    else collect_zones env zs r.1

/-- `get_compute_resources` (lines 54-125): everything runs inside one `try`;
whatever was accumulated when an exception arrives is returned. -/
def get_compute_resources (env : Env) : List InstanceRecord :=
  collect_zones env env.zones.items []

/-- One iteration of the snapshot loop (lines 195-202). -/
def snapshot_step (total_snapshot_gb : Rat) (s : Snapshot) : Rat :=
  if truthyNat s.storage_bytes then
    total_snapshot_gb + ((s.storage_bytes.getD 0 : Nat) : Rat) / 2 ^ 30
  else if truthyRat s.disk_size_gb then total_snapshot_gb + s.disk_size_gb.getD 0
  else total_snapshot_gb

/-- `get_snapshot_usage` (lines 189-207): sum over the snapshots the listing
yielded; a failure is caught on line 204 and the rounded partial total is
returned on line 207 regardless. -/
def get_snapshot_usage (env : Env) : Rat :=
  round2 (env.snapshots.items.foldl snapshot_step 0)

/-- Modelled from the spec (§4.5): the storage contribution of one snapshot —
the byte-denominated field, divided by 2^30, is preferred whenever it applies;
otherwise the GB-denominated field; otherwise nothing. -/
def snapshot_contribution (s : Snapshot) : Rat :=
  if truthyNat s.storage_bytes then ((s.storage_bytes.getD 0 : Nat) : Rat) / 2 ^ 30
  else if truthyRat s.disk_size_gb then s.disk_size_gb.getD 0
  else 0

/-- The byte size a blob contributes (line 223-224; absent or zero size is
falsy and contributes nothing). -/
def blob_bytes (blob : Blob) : Nat :=
  if truthyNat blob.size then blob.size.getD 0 else 0

/-- The recorded usage of one bucket (lines 217-229): the byte sizes of the
blobs its listing yielded (a mid-listing failure is caught on line 225 and the
partial sum kept), converted to GB and rounded. -/
def bucket_usage (env : Env) (bucket_name : List Char) : Rat :=
  round2 ((((env.blobsIn bucket_name).items.foldl (fun acc b => acc + blob_bytes b) 0 :
    Nat) : Rat) / 2 ^ 30)

/-- One iteration of the bucket loop (lines 216-231). -/
def gcs_step (env : Env) (st : List (List Char × Rat) × Rat) (bucket : Bucket) :
    List (List Char × Rat) × Rat :=
  let bucket_size_gb := bucket_usage env bucket.name
  (dictSet st.1 bucket.name bucket_size_gb, st.2 + bucket_size_gb)

/-- The bucket loop of `get_gcs_usage`: per-bucket map and running total over
the buckets the listing yielded (a mid-listing failure is caught on line 233). -/
def gcs_loop (env : Env) : List (List Char × Rat) × Rat :=
  env.buckets.items.foldl (gcs_step env) ([], 0)

/-- `get_gcs_usage` (lines 209-237): after the loop the rounded total is stored
into the same dictionary under the key `total_gcs_gb` (line 236). -/
def get_gcs_usage (env : Env) : List (List Char × Rat) :=
  dictSet (gcs_loop env).1 (chars "total_gcs_gb") (round2 (gcs_loop env).2)

/-- `main` (lines 318-364): with no project identifier it prints an error and
returns nothing; otherwise it runs the three collection stages and assembles
the result dictionary.  (Timestamp, console printing and the spreadsheet
export are external collaborators.  Lean reserves the name `main`, hence the
suffix.) -/
def main_run (env : Env) (project_id : Option (List Char)) : Option RunResult :=
  match project_id with
  | none => none
  | some pid =>
    some
      { project_id := pid
        instances := get_compute_resources env
        snapshot_total_gb := get_snapshot_usage env
        gcs_usage := get_gcs_usage env }

/-- An environment in which every listing yields nothing and succeeds, and
every lookup fails; concrete test environments override its fields. -/
def emptyEnv : Env :=
  { zones := ⟨[], false⟩
    instancesIn := fun _ => ⟨[], false⟩
    diskGet := fun _ _ => .error ()
    snapshots := ⟨[], false⟩
    buckets := ⟨[], false⟩
    blobsIn := fun _ => ⟨[], false⟩ }

/-- A healthy `e2-standard-4` instance used by the concrete test environments. -/
def instGood : Instance :=
  { name := some (chars "i1")
    status := some (chars "RUNNING")
    machine_type := chars "e2-standard-4"
    network_interfaces := []
    disks := [] }

/-- The record `process_instance` builds for `instGood` in zone `z2`. -/
def recGood : InstanceRecord :=
  { name := chars "i1"
    zone := chars "z2"
    machine_type := chars "e2-standard-4"
    status := chars "RUNNING"
    cpu := 4
    memory_gb := 16
    private_ips := chars "None"
    public_ips := chars "None"
    disks := [(chars "pd-standard", 0), (chars "pd-balanced", 0), (chars "pd-ssd", 0),
              (chars "local-ssd", 0)] }

/-- Two zones; listing the first zone's instances raises immediately, the
second zone holds `instGood` and lists fine. -/
def envC1 : Env :=
  { emptyEnv with
    zones := ⟨[⟨chars "z1"⟩, ⟨chars "z2"⟩], false⟩
    instancesIn := fun n => if n = chars "z1" then ⟨[], true⟩ else ⟨[instGood], false⟩ }

/-- An instance of the unsupported `m1` series. -/
def instBad : Instance :=
  { name := none
    status := none
    machine_type := chars "m1-ultramem-40"
    network_interfaces := []
    disks := [] }

/-- An `n2-highmem-2` instance in a healthy one-zone environment. -/
def instN2 : Instance :=
  { name := some (chars "i2")
    status := some (chars "RUNNING")
    machine_type := chars "n2-highmem-2"
    network_interfaces := []
    disks := [] }

/-- One healthy zone `za` listing exactly `instN2`. -/
def envC3 : Env :=
  { emptyEnv with
    zones := ⟨[⟨chars "za"⟩], false⟩
    instancesIn := fun _ => ⟨[instN2], false⟩ }

/-- The record the collector emits for `instN2`. -/
def recN2 : InstanceRecord :=
  { name := chars "i2"
    zone := chars "za"
    machine_type := chars "n2-highmem-2"
    status := chars "RUNNING"
    cpu := 2
    memory_gb := 16
    private_ips := chars "None"
    public_ips := chars "None"
    disks := [(chars "pd-standard", 0), (chars "pd-balanced", 0), (chars "pd-ssd", 0),
              (chars "local-ssd", 0)] }

/-- A snapshot listing that yields one 1 GiB snapshot and then raises. -/
def envC6 : Env :=
  { emptyEnv with snapshots := ⟨[⟨some 1073741824, none⟩], true⟩ }

/-- Two healthy buckets: `b1` holds one 2 GiB blob, `b2` one 1 GiB blob. -/
def envB : Env :=
  { emptyEnv with
    buckets := ⟨[⟨chars "b1"⟩, ⟨chars "b2"⟩], false⟩
    blobsIn := fun n => if n = chars "b1" then ⟨[⟨some 2147483648⟩], false⟩
                        else ⟨[⟨some 1073741824⟩], false⟩ }

/-- A bucket literally named `total_gcs_gb` (holding 5 GiB) next to `b1`
(holding 2 GiB). -/
def envT : Env :=
  { emptyEnv with
    buckets := ⟨[⟨chars "b1"⟩, ⟨chars "total_gcs_gb"⟩], false⟩
    blobsIn := fun n => if n = chars "b1" then ⟨[⟨some 2147483648⟩], false⟩
                        else ⟨[⟨some 5368709120⟩], false⟩ }

/-- An instance whose only disk is a scratch disk with no declared size. -/
def instC9 : Instance :=
  { name := none
    status := none
    machine_type := chars "e2-standard-2"
    network_interfaces := []
    disks := [{ source := none, type_ := some (chars "SCRATCH"), disk_size_gb := none }] }

/-- The records the per-instance loop emits for one zone when started from an
empty accumulator, together with whether it aborted on a raised exception. -/
def zone_outcome (env : Env) (z : Zone) : List InstanceRecord × Bool :=
  collect_instances env z.name (env.instancesIn z.name).items []

/-- Whether working through zone `z` ends in a raised exception: either one of
its instances raises while being processed, or its instance listing raises
after the items it yielded. -/
def zone_raises (env : Env) (z : Zone) : Bool :=
  (zone_outcome env z).2 || (env.instancesIn z.name).failed

/-- A supported-series instance whose machine type makes `get_machine_specs`
raise (the unguarded `int(parts[-1])` of line 33): processing it is a
per-instance failure with a perfectly healthy listing. -/
def instRaise : Instance :=
  { name := some (chars "i3")
    status := some (chars "RUNNING")
    machine_type := chars "n2-standard-abc"
    network_interfaces := []
    disks := [] }

/-- Three zones: `z0` is healthy, `z1` lists fine but its second instance
raises while being processed, `z2` is healthy again. -/
def envC1b : Env :=
  { emptyEnv with
    zones := ⟨[⟨chars "z0"⟩, ⟨chars "z1"⟩, ⟨chars "z2"⟩], false⟩
    instancesIn := fun n =>
      if n = chars "z0" then ⟨[instGood], false⟩
      else if n = chars "z1" then ⟨[instN2, instRaise], false⟩
      else ⟨[instGood], false⟩ }

lemma rat_floor_eq_int_floor (q : Rat) : Rat.floor q = ⌊q⌋ :=
  (Rat.floor_def' q).trans Rat.floor_def.symm

lemma floor_half : ⌊(1 / 2 : Rat)⌋ = 0 := by
  rw [Int.floor_eq_iff]
  norm_num

lemma round2_eqn (x : Rat) : round2 x = ((⌊x * 100 + 1 / 2⌋ : Int) : Rat) / 100 := by
  unfold round2
  rw [rat_floor_eq_int_floor]

lemma round2_intCast (n : Int) : round2 ((n : Rat)) = (n : Rat) := by
  rw [round2_eqn]
  have h : ((n : Rat)) * 100 + 1 / 2 = ((n * 100 : Int) : Rat) + 1 / 2 := by push_cast; ring
  rw [h, Int.floor_int_add, floor_half]
  push_cast
  field_simp

lemma round2_idem (x : Rat) : round2 (round2 x) = round2 x := by
  rw [round2_eqn x, round2_eqn]
  congr 1
  have h : ((⌊x * 100 + 1 / 2⌋ : Int) : Rat) / 100 * 100 + 1 / 2 =
      ((⌊x * 100 + 1 / 2⌋ : Int) : Rat) + 1 / 2 := by
    rw [div_mul_cancel₀]
    norm_num
  rw [h, Int.floor_int_add, floor_half, add_zero]

lemma splitC_ne_nil (sep : Char) (l : List Char) : splitC sep l ≠ [] := by
  cases l with
  | nil => simp [splitC]
  | cons c cs =>
    unfold splitC
    cases hsc : splitC sep cs with
    | nil => simp
    | cons g gs =>
      by_cases hc : c = sep <;> simp [hc]

lemma splitC_no_sep (sep : Char) (xs : List Char) (h : ∀ c ∈ xs, c ≠ sep) :
    splitC sep xs = [xs] := by
  induction xs with
  | nil => rfl
  | cons c cs ih =>
    have hcs : splitC sep cs = [cs] := ih fun a ha => h a (List.mem_cons_of_mem _ ha)
    have hc : c ≠ sep := h c (List.mem_cons_self c cs)
    unfold splitC
    rw [hcs]
    simp [hc]

lemma splitC_append_sep (sep : Char) (xs ys : List Char) (h : ∀ c ∈ xs, c ≠ sep) :
    splitC sep (xs ++ sep :: ys) = xs :: splitC sep ys := by
  induction xs with
  | nil =>
    simp only [List.nil_append]
    cases hsc : splitC sep ys with
    | nil => exact absurd hsc (splitC_ne_nil sep ys)
    | cons g gs =>
      conv_lhs => unfold splitC
      rw [hsc]
      simp
  | cons c cs ih =>
    have hcs := ih fun a ha => h a (List.mem_cons_of_mem _ ha)
    have hc : c ≠ sep := h c (List.mem_cons_self c cs)
    simp only [List.cons_append]
    conv_lhs => unfold splitC
    rw [hcs]
    simp [hc]

lemma leadsWith_self_append (p ys : List Char) : leadsWith p (p ++ ys) = true := by
  induction p with
  | nil => rfl
  | cons c cs ih => simp [leadsWith, ih]

lemma hasSub_mid (pat pre post : List Char) : hasSub pat (pre ++ (pat ++ post)) = true := by
  induction pre with
  | nil =>
    simp only [List.nil_append]
    cases pat with
    | nil =>
      cases post with
      | nil => rfl
      | cons c cs => rfl
    | cons p ps =>
      have hl : leadsWith (p :: ps) ((p :: ps) ++ post) = true := leadsWith_self_append _ _
      simp only [List.cons_append] at hl ⊢
      simp [hasSub, hl]
  | cons c pre' ih => simp [hasSub, ih]

lemma leadsWith_mem (p s : List Char) (h : leadsWith p s = true) : ∀ c ∈ p, c ∈ s := by
  induction p generalizing s with
  | nil => simp
  | cons a p' ih =>
    cases s with
    | nil => simp [leadsWith] at h
    | cons b s' =>
      simp only [leadsWith, Bool.and_eq_true, beq_iff_eq] at h
      intro c hc
      rcases List.mem_cons.mp hc with rfl | hc
      · exact h.1 ▸ List.mem_cons_self _ _
      · exact List.mem_cons_of_mem _ (ih s' h.2 c hc)

lemma hasSub_mem (pat s : List Char) (h : hasSub pat s = true) : ∀ c ∈ pat, c ∈ s := by
  induction s with
  | nil =>
    cases pat with
    | nil => simp
    | cons a ps => simp [hasSub] at h
  | cons b s' ih =>
    simp only [hasSub, Bool.or_eq_true] at h
    intro c hc
    rcases h with h | h
    · exact leadsWith_mem _ _ h c hc
    · exact List.mem_cons_of_mem _ (ih h c hc)

lemma hasSub_eq_false (pat s : List Char) (c : Char) (hc : c ∈ pat) (hs : c ∉ s) :
    hasSub pat s = false := by
  cases h : hasSub pat s with
  | false => rfl
  | true => exact absurd (hasSub_mem pat s h c hc) hs

lemma pattern_ne_lit (series family digits lit : List Char)
    (hs : series.length = 2) (hf : 7 ≤ family.length) (hd : digits ≠ [])
    (hl : lit.length ≤ 9) : series ++ '-' :: (family ++ '-' :: digits) ≠ lit := by
  intro he
  have h1 : 0 < digits.length := List.length_pos.mpr hd
  have h2 := congrArg List.length he
  simp only [List.length_append, List.length_cons] at h2
  omega

lemma not_mem_pattern (ch : Char) (series family digits : List Char)
    (h1 : ch ∉ series) (h2 : ch ≠ '-') (h3 : ch ∉ family)
    (h4 : ch.isDigit = false) (hdig : ∀ c ∈ digits, c.isDigit = true) :
    ch ∉ series ++ '-' :: (family ++ '-' :: digits) := by
  intro hm
  rcases List.mem_append.mp hm with h | h
  · exact h1 h
  rcases List.mem_cons.mp h with h | h
  · exact h2 h
  rcases List.mem_append.mp h with h | h
  · exact h3 h
  rcases List.mem_cons.mp h with h | h
  · exact h2 h
  · have := hdig ch h
    rw [h4] at this
    exact Bool.noConfusion this

lemma dictSet_absent (d : List (List Char × Rat)) (k : List Char) (v : Rat)
    (h : k ∉ d.map Prod.fst) : dictSet d k v = d ++ [(k, v)] := by
  induction d with
  | nil => rfl
  | cons p rest ih =>
    obtain ⟨k', v'⟩ := p
    have hk : k' ≠ k := fun he => h (by simp [he])
    have h' : k ∉ rest.map Prod.fst := fun hm => h (List.mem_cons_of_mem _ hm)
    simp [dictSet, hk, ih h']

lemma dictGet_dictSet_self (d : List (List Char × Rat)) (k : List Char) (v : Rat) :
    dictGet (dictSet d k v) k = some v := by
  induction d with
  | nil => simp [dictSet, dictGet]
  | cons p rest ih =>
    obtain ⟨k', v'⟩ := p
    by_cases hk : k' = k
    · simp [dictSet, hk, dictGet]
    · simp [dictSet, hk, dictGet, ih]

lemma dictGet_mem (d : List (List Char × Rat)) (k : List Char) (v : Rat)
    (h : dictGet d k = some v) : (k, v) ∈ d := by
  induction d with
  | nil => simp [dictGet] at h
  | cons p rest ih =>
    obtain ⟨k', v'⟩ := p
    by_cases hk : k' = k
    · subst hk
      simp [dictGet] at h
      subst h
      exact List.mem_cons_self _ _
    · simp only [dictGet, if_neg hk] at h
      exact List.mem_cons_of_mem _ (ih h)

lemma snapshot_step_eq (t : Rat) (s : Snapshot) :
    snapshot_step t s = t + snapshot_contribution s := by
  unfold snapshot_step snapshot_contribution
  split_ifs <;> simp

lemma foldl_snapshot (l : List Snapshot) : ∀ a : Rat,
    l.foldl snapshot_step a = a + (l.map snapshot_contribution).sum := by
  induction l with
  | nil => intro a; simp
  | cons s rest ih =>
    intro a
    simp only [List.foldl_cons, List.map_cons, List.sum_cons, snapshot_step_eq, ih]
    ring

lemma get_snapshot_usage_eq (env : Env) :
    get_snapshot_usage env = round2 ((env.snapshots.items.map snapshot_contribution).sum) := by
  unfold get_snapshot_usage
  rw [foldl_snapshot]
  rw [zero_add]

lemma gcs_loop_invariant (env : Env) (bs : List Bucket) :
    ∀ (m : List (List Char × Rat)) (t : Rat),
      (∀ b ∈ bs, b.name ∉ m.map Prod.fst) → (bs.map Bucket.name).Nodup →
      t = (m.map Prod.snd).sum →
      (bs.foldl (gcs_step env) (m, t)).2 =
        ((bs.foldl (gcs_step env) (m, t)).1.map Prod.snd).sum := by
  induction bs with
  | nil =>
    intro m t _ _ ht
    simpa using ht
  | cons b rest ih =>
    intro m t habs hnd ht
    have habsb : b.name ∉ m.map Prod.fst := habs b (List.mem_cons_self _ _)
    have hstep : gcs_step env (m, t) b =
        (m ++ [(b.name, bucket_usage env b.name)], t + bucket_usage env b.name) := by
      simp only [gcs_step]
      rw [dictSet_absent m b.name _ habsb]
    rw [List.foldl_cons, hstep]
    apply ih
    · intro b' hb' hmem
      simp only [List.map_append, List.map_cons, List.map_nil] at hmem
      rcases List.mem_append.mp hmem with hm | hm
      · exact habs b' (List.mem_cons_of_mem _ hb') hm
      · have hbn : b'.name = b.name := by simpa using hm
        have hnodup : b.name ∉ rest.map Bucket.name := (List.nodup_cons.mp hnd).1
        exact hnodup (hbn ▸ List.mem_map_of_mem Bucket.name hb')
    · exact (List.nodup_cons.mp hnd).2
    · rw [ht]
      simp

lemma gcs_total_eq (env : Env) (h : (env.buckets.items.map Bucket.name).Nodup) :
    (gcs_loop env).2 = ((gcs_loop env).1.map Prod.snd).sum := by
  unfold gcs_loop
  exact gcs_loop_invariant env env.buckets.items [] 0 (by simp) h (by simp)

lemma dictAdd_keys (d : List (List Char × Rat)) (k : List Char) (v : Rat) :
    (dictAdd d k v).map Prod.fst = d.map Prod.fst := by
  unfold dictAdd
  rw [List.map_map]
  apply List.map_congr_left
  intro p _
  by_cases hp : p.1 = k <;> simp [hp]

lemma disk_step_keys (env : Env) (zone_name : List Char) (d : List (List Char × Rat))
    (disk : AttachedDisk) :
    (disk_step env zone_name d disk).map Prod.fst = d.map Prod.fst := by
  simp only [disk_step]
  split
  · split
    · rfl
    · split
      · rfl
      · split
        · exact dictAdd_keys _ _ _
        · rfl
  · split
    · exact dictAdd_keys _ _ _
    · rfl

lemma foldl_disk_keys (env : Env) (zone_name : List Char) (ds : List AttachedDisk) :
    ∀ d : List (List Char × Rat),
      (ds.foldl (disk_step env zone_name) d).map Prod.fst = d.map Prod.fst := by
  induction ds with
  | nil => intro d; rfl
  | cons a rest ih =>
    intro d
    rw [List.foldl_cons, ih, disk_step_keys]

lemma mem_collect_instances (env : Env) (z : List Char) (l : List Instance) :
    ∀ (acc : List InstanceRecord) (r : InstanceRecord),
      r ∈ (collect_instances env z l acc).1 →
      r ∈ acc ∨ ∃ i ∈ l, process_instance env z i = Except.ok (some r) := by
  induction l with
  | nil =>
    intro acc r h
    exact Or.inl h
  | cons i rest ih =>
    intro acc r h
    unfold collect_instances at h
    split at h
    · exact Or.inl h
    · rcases ih acc r h with h' | ⟨j, hj, hjr⟩
      · exact Or.inl h'
      · exact Or.inr ⟨j, List.mem_cons_of_mem _ hj, hjr⟩
    · rename_i rec hp
      rcases ih (acc ++ [rec]) r h with h' | ⟨j, hj, hjr⟩
      · rcases List.mem_append.mp h' with h'' | h''
        · exact Or.inl h''
        · have hr : r = rec := by simpa using h''
          exact Or.inr ⟨i, List.mem_cons_self _ _, by rw [hr]; exact hp⟩
      · exact Or.inr ⟨j, List.mem_cons_of_mem _ hj, hjr⟩

lemma mem_collect_zones (env : Env) (zs : List Zone) :
    ∀ (acc : List InstanceRecord) (r : InstanceRecord),
      r ∈ collect_zones env zs acc →
      r ∈ acc ∨ ∃ z i, process_instance env z i = Except.ok (some r) := by
  induction zs with
  | nil =>
    intro acc r h
    exact Or.inl h
  | cons z zs' ih =>
    intro acc r h
    have hfirst : r ∈ (collect_instances env z.name (env.instancesIn z.name).items acc).1 →
        r ∈ acc ∨ ∃ z' i, process_instance env z' i = Except.ok (some r) := by
      intro hm
      rcases mem_collect_instances env z.name _ acc r hm with h' | ⟨i, _, hi⟩
      · exact Or.inl h'
      · exact Or.inr ⟨z.name, i, hi⟩
    simp only [collect_zones] at h
    split at h
    · exact hfirst h
    · split at h
      · exact hfirst h
      · rcases ih _ r h with h' | hex
        · exact hfirst h'
        · exact Or.inr hex

lemma process_instance_some (env : Env) (z : List Char) (i : Instance) (r : InstanceRecord)
    (h : process_instance env z i = Except.ok (some r)) :
    r.machine_type = machineTypeOf i ∧
      seriesOf r.machine_type ∈ [chars "n2", chars "e2"] := by
  simp only [process_instance] at h
  split at h
  · simp at h
  · rename_i hser
    rw [Decidable.not_not] at hser
    split at h
    · simp at h
    · simp at h
    · simp only [Except.ok.injEq, Option.some.injEq] at h
      subst h
      exact ⟨rfl, hser⟩

lemma pyInt_digits (digits : List Char) (hd : digits ≠ [])
    (hdig : ∀ c ∈ digits, c.isDigit = true) :
    pyInt digits = some ((digitsVal digits : Int)) := by
  unfold pyInt
  rw [if_pos ⟨hd, List.all_eq_true.mpr (by intro x hx; exact hdig x hx)⟩]

lemma digits_no_dash (digits : List Char) (hdig : ∀ c ∈ digits, c.isDigit = true) :
    ∀ c ∈ digits, c ≠ '-' := by
  intro c hc he
  have h1 := hdig c hc
  rw [he] at h1
  exact absurd h1 (by decide)

/-- The `C5` pattern rule of `get_machine_specs`: on
`{e2,n2}-{standard,highmem,highcpu}-<n>` with numeric `n`, the result is
exactly `(n, n * ratio)` with the family's GB-per-vCPU ratio. -/
theorem machine_specs_pattern (series family digits : List Char) (perCpu : Rat)
    (hs : series = chars "e2" ∨ series = chars "n2")
    (hf : (family = chars "standard" ∧ perCpu = 4) ∨
          (family = chars "highmem" ∧ perCpu = 8) ∨
          (family = chars "highcpu" ∧ perCpu = 1))
    (hd : digits ≠ []) (hdig : ∀ c ∈ digits, c.isDigit = true)
    (_hn : 1 ≤ digitsVal digits) :
    get_machine_specs (series ++ '-' :: (family ++ '-' :: digits)) =
      Except.ok (some (((digitsVal digits : Nat) : Rat),
        ((digitsVal digits : Nat) : Rat) * perCpu)) := by
  have hsd : ∀ c ∈ series, c ≠ '-' := by
    rcases hs with h | h <;> subst h <;> decide
  have hsl : series.length = 2 := by
    rcases hs with h | h <;> subst h <;> decide
  have hfd : ∀ c ∈ family, c ≠ '-' := by
    rcases hf with ⟨h, _⟩ | ⟨h, _⟩ | ⟨h, _⟩ <;> subst h <;> decide
  have hfl : 7 ≤ family.length := by
    rcases hf with ⟨h, _⟩ | ⟨h, _⟩ | ⟨h, _⟩ <;> subst h <;> decide
  have hdd : ∀ c ∈ digits, c ≠ '-' := digits_no_dash digits hdig
  have hparts : splitC '-' (series ++ '-' :: (family ++ '-' :: digits)) =
      [series, family, digits] := by
    rw [splitC_append_sep '-' series _ hsd, splitC_append_sep '-' family _ hfd,
      splitC_no_sep '-' digits hdd]
  have hne1 : series ++ '-' :: (family ++ '-' :: digits) ≠ chars "e2-micro" :=
    pattern_ne_lit series family digits _ hsl hfl hd (by decide)
  have hne2 : series ++ '-' :: (family ++ '-' :: digits) ≠ chars "e2-small" :=
    pattern_ne_lit series family digits _ hsl hfl hd (by decide)
  have hne3 : series ++ '-' :: (family ++ '-' :: digits) ≠ chars "e2-medium" :=
    pattern_ne_lit series family digits _ hsl hfl hd (by decide)
  have hpy := pyInt_digits digits hd hdig
  have hlen : ¬([series, family, digits].length < 3) := by simp
  have hlast : [series, family, digits].getLastD ([] : List Char) = digits := rfl
  have hget2 : [series, family, digits].getD 2 ([] : List Char) = digits := rfl
  rcases hf with ⟨hfam, hr⟩ | ⟨hfam, hr⟩ | ⟨hfam, hr⟩ <;> subst hfam <;> subst hr
  · have hstd : hasSub (chars "standard")
        (series ++ '-' :: (chars "standard" ++ '-' :: digits)) = true := by
      have h := hasSub_mid (chars "standard") (series ++ ['-']) ('-' :: digits)
      simpa [List.append_assoc] using h
    simp only [get_machine_specs]
    rw [if_neg hne1, if_neg hne2, if_neg hne3, hparts]
    rw [if_neg hlen, hlast, hget2, hpy]
    simp only [hstd]
    simp only [if_true]
    push_cast
    ring_nf
  · have hA : 'a' ∉ series := by
      rcases hs with h | h <;> subst h <;> decide
    have hstd : hasSub (chars "standard")
        (series ++ '-' :: (chars "highmem" ++ '-' :: digits)) = false :=
      hasSub_eq_false _ _ 'a' (by decide)
        (not_mem_pattern 'a' series (chars "highmem") digits hA (by decide) (by decide)
          (by decide) hdig)
    have hhm : hasSub (chars "highmem")
        (series ++ '-' :: (chars "highmem" ++ '-' :: digits)) = true := by
      have h := hasSub_mid (chars "highmem") (series ++ ['-']) ('-' :: digits)
      simpa [List.append_assoc] using h
    simp only [get_machine_specs]
    rw [if_neg hne1, if_neg hne2, if_neg hne3, hparts]
    rw [if_neg hlen, hlast, hget2, hpy]
    simp only [hstd, hhm]
    simp only [if_false, if_true]
    push_cast
    ring_nf
  · have hA : 'a' ∉ series := by
      rcases hs with h | h <;> subst h <;> decide
    have hM : 'm' ∉ series := by
      rcases hs with h | h <;> subst h <;> decide
    have hstd : hasSub (chars "standard")
        (series ++ '-' :: (chars "highcpu" ++ '-' :: digits)) = false :=
      hasSub_eq_false _ _ 'a' (by decide)
        (not_mem_pattern 'a' series (chars "highcpu") digits hA (by decide) (by decide)
          (by decide) hdig)
    have hhm : hasSub (chars "highmem")
        (series ++ '-' :: (chars "highcpu" ++ '-' :: digits)) = false :=
      hasSub_eq_false _ _ 'm' (by decide)
        (not_mem_pattern 'm' series (chars "highcpu") digits hM (by decide) (by decide)
          (by decide) hdig)
    have hhc : hasSub (chars "highcpu")
        (series ++ '-' :: (chars "highcpu" ++ '-' :: digits)) = true := by
      have h := hasSub_mid (chars "highcpu") (series ++ ['-']) ('-' :: digits)
      simpa [List.append_assoc] using h
    simp only [get_machine_specs]
    rw [if_neg hne1, if_neg hne2, if_neg hne3, hparts]
    rw [if_neg hlen, hlast, hget2, hpy]
    simp only [hstd, hhm, hhc]
    simp only [if_false, if_true]
    push_cast
    ring_nf

lemma collect_instances_append (env : Env) (z : List Char) (l : List Instance) :
    ∀ acc, (collect_instances env z l acc).1 = acc ++ (collect_instances env z l []).1 ∧
      (collect_instances env z l acc).2 = (collect_instances env z l []).2 := by
  induction l with
  | nil =>
    intro acc
    simp [collect_instances]
  | cons i rest ih =>
    intro acc
    unfold collect_instances
    cases hp : process_instance env z i with
    | error e => simp
    | ok o =>
      cases o with
      | none => exact ih acc
      | some r =>
        simp only [List.nil_append]
        constructor
        · rw [(ih (acc ++ [r])).1, (ih [r]).1, List.append_assoc]
        · rw [(ih (acc ++ [r])).2, (ih [r]).2]

lemma collect_zones_abort (env : Env) (z : Zone) (post : List Zone) :
    ∀ (pre : List Zone) (acc : List InstanceRecord),
      (∀ w ∈ pre, zone_raises env w = false) → zone_raises env z = true →
      collect_zones env (pre ++ z :: post) acc =
        acc ++ (pre.map fun w => (zone_outcome env w).1).flatten ++ (zone_outcome env z).1 := by
  intro pre
  induction pre with
  | nil =>
    intro acc _ hfail
    simp only [List.nil_append, collect_zones]
    have h1 := (collect_instances_append env z.name (env.instancesIn z.name).items acc).1
    have h2 := (collect_instances_append env z.name (env.instancesIn z.name).items acc).2
    simp only [zone_raises, zone_outcome, Bool.or_eq_true] at hfail
    simp only [zone_outcome]
    rcases hfail with hf | hf
    · rw [h2, hf]
      simp [h1]
    · rw [hf]
      cases hab : (collect_instances env z.name (env.instancesIn z.name).items acc).2 <;>
        simp [h1, h2, hab]
  | cons w pre' ih =>
    intro acc hok hfail
    have hw := hok w (List.mem_cons_self _ _)
    have hw1 : (collect_instances env w.name (env.instancesIn w.name).items []).2 = false := by
      cases h : (collect_instances env w.name (env.instancesIn w.name).items []).2
      · rfl
      · simp [zone_raises, zone_outcome, h] at hw
    have hw2 : (env.instancesIn w.name).failed = false := by
      cases h : (env.instancesIn w.name).failed
      · rfl
      · simp [zone_raises, zone_outcome, h] at hw
    simp only [List.cons_append, collect_zones]
    have h1 := (collect_instances_append env w.name (env.instancesIn w.name).items acc).1
    have h2 := (collect_instances_append env w.name (env.instancesIn w.name).items acc).2
    rw [h2, hw1, hw2]
    simp only [Bool.false_eq_true, if_false, List.append_eq]
    rw [h1, ih _ (fun a ha => hok a (List.mem_cons_of_mem _ ha)) hfail]
    simp only [List.map_cons, List.flatten_cons, zone_outcome, List.append_assoc]

unseal Rat.mul Rat.add Rat.inv Rat.sub

/-- C1 (amended): a failure while listing one zone's instances or while
processing one instance is caught only at the whole-collection boundary:
wherever the first raising zone sits, the collector returns exactly the
records accumulated before the failure — those of the healthy zones processed
so far plus the failing zone's prefix — and skips every remaining zone and
instance, rather than continuing with the next zone/instance. -/
theorem collector_failure_aborts (env : Env) (pre : List Zone) (z : Zone)
    (post : List Zone) (hz : env.zones.items = pre ++ z :: post)
    (hok : ∀ w ∈ pre, zone_raises env w = false)
    (hfail : zone_raises env z = true) :
    get_compute_resources env =
      (pre.map fun w => (zone_outcome env w).1).flatten ++ (zone_outcome env z).1 := by
  unfold get_compute_resources
  rw [hz, collect_zones_abort env z post pre [] hok hfail]
  simp

/-- Witness for C1: in `envC1b` the second of three zones fails — not by a
listing failure but because its second instance raises while being processed —
and the collector's output is exactly the healthy first zone's records plus
the failing zone's prefix record; the healthy third zone contributes
nothing. -/
theorem collector_failure_aborts_witness :
    get_compute_resources envC1b =
      (([⟨chars "z0"⟩] : List Zone).map fun w => (zone_outcome envC1b w).1).flatten ++
        (zone_outcome envC1b ⟨chars "z1"⟩).1 :=
  collector_failure_aborts envC1b [⟨chars "z0"⟩] ⟨chars "z1"⟩ [⟨chars "z2"⟩]
    (by decide) (by decide) (by decide)

/-- Counterexample to C1 as stated: in `envC1` zone `z2` lists the healthy
instance `instGood` (processing it alone yields `recGood`), yet because zone
`z1`'s listing failed first, the collector returns `[]` — the record of the
other successfully processable instance is *not* in the output. -/
theorem collector_failure_aborts_counterexample :
    get_compute_resources envC1 = [] ∧
      process_instance envC1 (chars "z2") instGood = Except.ok (some recGood) :=
  ⟨by decide, by decide⟩

/-- C2 (intent model): with a project identifier present, `main` assembles the
result from the three collection stages for every environment, i.e. for every
failure disposition of every remote call; no stage failure prevents the
snapshot.  (This holds for the evident method binding; the source as written
defeats it by dedenting the stage functions out of the class, which is the
reported code bug.) -/
theorem pipeline_always_snapshot (env : Env) (pid : List Char) :
    ∃ r : RunResult, main_run env (some pid) = some r ∧ r.project_id = pid ∧
      r.instances = get_compute_resources env ∧
      r.snapshot_total_gb = get_snapshot_usage env ∧
      r.gcs_usage = get_gcs_usage env :=
  ⟨_, rfl, rfl, rfl, rfl, rfl⟩

/-- C3 (amended): an instance whose machine-type series is outside `{n2, e2}`
is skipped by the collector's own series check before the resolver is ever
consulted (the per-instance step yields no record), and consequently every
record in the collector's output has a supported series.  The resolver itself
does not signal Unsupported for such strings (see the counterexample). -/
theorem collector_series_filter :
    (∀ (env : Env) (zone_name : List Char) (inst : Instance),
        seriesOf (machineTypeOf inst) ∉ [chars "n2", chars "e2"] →
        process_instance env zone_name inst = Except.ok none) ∧
    (∀ (env : Env) (r : InstanceRecord), r ∈ get_compute_resources env →
        seriesOf r.machine_type ∈ [chars "n2", chars "e2"]) := by
  constructor
  · intro env z i h
    simp only [process_instance]
    rw [if_pos h]
  · intro env r h
    unfold get_compute_resources at h
    rcases mem_collect_zones env env.zones.items [] r h with h' | ⟨z, i, hpi⟩
    · cases h'
    · exact (process_instance_some env z i r hpi).2

/-- Witness for C3: the `m1`-series instance `instBad` yields no record, and
the emitted record `recN2` of the healthy environment `envC3` has a supported
series. -/
theorem collector_series_filter_witness :
    process_instance emptyEnv (chars "zz") instBad = Except.ok none ∧
      seriesOf recN2.machine_type ∈ [chars "n2", chars "e2"] :=
  ⟨collector_series_filter.1 emptyEnv (chars "zz") instBad (by decide),
   collector_series_filter.2 envC3 recN2 (by decide)⟩

/-- Counterexample to C3 as stated: on `m1-ultramem-40` the resolver does not
return the Unsupported outcome (the `None` its caller tests for); it returns
the ordinary spec `(40, 160)`.  The skip is performed by the collector, not by
the resolver. -/
theorem collector_series_filter_counterexample :
    get_machine_specs (chars "m1-ultramem-40") ≠ Except.ok none ∧
      get_machine_specs (chars "m1-ultramem-40") = Except.ok (some (40, 160)) :=
  ⟨by decide, by decide⟩

/-- C4 (amended): a machine type that is not a shared-core exact match, has at
least 3 dash segments and a non-numeric segment 2 resolves to the fallback
`(2, 8)` — provided its last segment is numeric; otherwise the unguarded
`int(parts[-1])` on line 33 raises before the guarded vCPU parse is reached
(see the counterexample). -/
theorem machine_specs_fallback (mt : List Char) (m : Int)
    (h1 : mt ≠ chars "e2-micro") (h2 : mt ≠ chars "e2-small")
    (h3 : mt ≠ chars "e2-medium")
    (h4 : ¬(splitC '-' mt).length < 3)
    (h5 : pyInt ((splitC '-' mt).getLastD []) = some m)
    (h6 : pyInt ((splitC '-' mt).getD 2 []) = none) :
    get_machine_specs mt = Except.ok (some (2, 8)) := by
  simp only [get_machine_specs]
  rw [if_neg h1, if_neg h2, if_neg h3, if_neg h4, h5, h6]

/-- Witness for C4 (amended): `n2-standard-x-8` has a non-numeric segment 2
and a numeric last segment, and resolves to the fallback `(2, 8)`. -/
theorem machine_specs_fallback_witness :
    get_machine_specs (chars "n2-standard-x-8") = Except.ok (some (2, 8)) :=
  machine_specs_fallback (chars "n2-standard-x-8") 8 (by decide) (by decide) (by decide)
    (by decide) (by decide) (by decide)

/-- Counterexample to C4 as stated: `n2-standard-abc` is not shared-core,
splits into 3 segments, and its segment 2 is non-numeric — yet the function
raises (`int(parts[-1])` on line 33, before the guarded parse) instead of
returning `(2, 8)`. -/
theorem machine_specs_fallback_counterexample :
    get_machine_specs (chars "n2-standard-abc") = Except.error () := by decide

/-- Witness for C5: `e2-standard-4` resolves to exactly `(4, 16)`. -/
theorem machine_specs_pattern_witness :
    get_machine_specs (chars "e2" ++ '-' :: (chars "standard" ++ '-' :: ['4'])) =
      Except.ok (some (4, 16)) := by
  have h := machine_specs_pattern (chars "e2") (chars "standard") ['4'] 4 (Or.inl rfl)
    (Or.inl ⟨rfl, rfl⟩) (by decide) (by decide) (by decide)
  rw [h]
  norm_num [show digitsVal ['4'] = 4 from by decide]

/-- C6 (amended): a failure during snapshot collection never propagates, and
the function returns the rounded partial sum accumulated from the snapshots
yielded before the failure — which is `0` only when the failure precedes any
accumulation, not in general. -/
theorem snapshot_failure_partial (env : Env) (_hf : env.snapshots.failed = true) :
    get_snapshot_usage env =
      round2 ((env.snapshots.items.map snapshot_contribution).sum) :=
  get_snapshot_usage_eq env

/-- Witness for C6 (amended): `envC6`'s snapshot listing fails after yielding
one snapshot, and the result is the rounded partial sum. -/
theorem snapshot_failure_partial_witness :
    get_snapshot_usage envC6 =
      round2 ((envC6.snapshots.items.map snapshot_contribution).sum) :=
  snapshot_failure_partial envC6 (by decide)

/-- Counterexample to C6 as stated: in `envC6` a failure occurs (the listing
raises after one 1 GiB snapshot), yet the function returns `1`, not `0`. -/
theorem snapshot_failure_partial_counterexample :
    envC6.snapshots.failed = true ∧ get_snapshot_usage envC6 = 1 ∧ (1 : Rat) ≠ 0 :=
  ⟨by decide, by decide, by decide⟩

/-- C7: `get_snapshot_usage` is the 2-decimal rounding of the sum of the
per-snapshot contributions, where the contribution prefers the
byte-denominated field (divided by `2^30`) whenever it applies and otherwise
uses the GB-denominated field. -/
theorem snapshot_usage_spec :
    (∀ env : Env, get_snapshot_usage env =
        round2 ((env.snapshots.items.map snapshot_contribution).sum)) ∧
    (∀ (b : Nat) (g : Rat), b ≠ 0 →
        snapshot_contribution ⟨some b, some g⟩ = ((b : Nat) : Rat) / 2 ^ 30) := by
  constructor
  · exact get_snapshot_usage_eq
  · intro b g hb
    simp [snapshot_contribution, truthyNat, hb]

/-- Witness for C7: the empty listing sums to the rounded empty sum, and a
snapshot carrying both fields contributes its byte value divided by `2^30`. -/
theorem snapshot_usage_spec_witness :
    get_snapshot_usage emptyEnv =
      round2 ((emptyEnv.snapshots.items.map snapshot_contribution).sum) ∧
    snapshot_contribution ⟨some 1073741824, some 5⟩ =
      ((1073741824 : Nat) : Rat) / 2 ^ 30 :=
  ⟨snapshot_usage_spec.1 emptyEnv, snapshot_usage_spec.2 1073741824 5 (by decide)⟩

/-- C8: for every collected bucket-usage map (bucket names are unique in the
cloud), the value stored under `total_gcs_gb` equals the 2-decimal rounding of
the sum of the recorded per-bucket values — the total is a fold over those
values and is never independently mutated. -/
theorem bucket_total_invariant (env : Env)
    (h : (env.buckets.items.map Bucket.name).Nodup) :
    dictGet (get_gcs_usage env) (chars "total_gcs_gb") =
      some (round2 (((gcs_loop env).1.map Prod.snd).sum)) := by
  unfold get_gcs_usage
  rw [dictGet_dictSet_self, gcs_total_eq env h]

/-- Witness for C8: in `envB` (buckets of 2 GiB and 1 GiB) the recorded total
is the rounded sum of the recorded per-bucket values. -/
theorem bucket_total_invariant_witness :
    (envB.buckets.items.map Bucket.name).Nodup ∧
      dictGet (get_gcs_usage envB) (chars "total_gcs_gb") =
        some (round2 (((gcs_loop envB).1.map Prod.snd).sum)) :=
  ⟨by decide, bucket_total_invariant envB (by decide)⟩

/-- C9: every disk breakdown carries exactly the four disk-kind keys
`pd-standard`, `pd-balanced`, `pd-ssd`, `local-ssd` (zero when unused), with
every value rounded to 2 decimals — for every instance and every failure
disposition of the per-disk lookups. -/
theorem disk_breakdown_invariant (env : Env) (inst : Instance) (zone_name : List Char) :
    (get_instance_disks env inst zone_name).map Prod.fst =
      [chars "pd-standard", chars "pd-balanced", chars "pd-ssd", chars "local-ssd"] ∧
    ∀ p ∈ get_instance_disks env inst zone_name, round2 p.2 = p.2 := by
  constructor
  · unfold get_instance_disks
    rw [List.map_map]
    have h1 : (Prod.fst ∘ fun p : List Char × Rat => (p.1, round2 p.2)) = Prod.fst := rfl
    rw [h1, foldl_disk_keys]
    rfl
  · intro p hp
    unfold get_instance_disks at hp
    rcases List.mem_map.mp hp with ⟨q, hq, rfl⟩
    simpa using round2_idem q.2

/-- Witness for C9: an instance with one default-sized scratch disk has all
four keys, and its `local-ssd` value `375` is a rounding fixed point. -/
theorem disk_breakdown_invariant_witness :
    (get_instance_disks emptyEnv instC9 (chars "zb")).map Prod.fst =
      [chars "pd-standard", chars "pd-balanced", chars "pd-ssd", chars "local-ssd"] ∧
    round2 ((chars "local-ssd", (375 : Rat)).2) = (chars "local-ssd", (375 : Rat)).2 :=
  ⟨(disk_breakdown_invariant emptyEnv instC9 (chars "zb")).1,
   (disk_breakdown_invariant emptyEnv instC9 (chars "zb")).2 (chars "local-ssd", 375)
     (by decide)⟩

/-- C10: the per-bucket map returned by `get_gcs_usage` itself contains the
derived total under the reserved key `total_gcs_gb`; in `envT`, whose bucket
literally named `total_gcs_gb` holds 5 GiB next to the 2 GiB bucket `b1`, the
bucket's recorded size is overwritten by the overall total `7`, which any
consumer iterating the map sees as if it were a bucket entry. -/
theorem gcs_total_in_map :
    (∀ env : Env, (chars "total_gcs_gb", round2 (gcs_loop env).2) ∈ get_gcs_usage env) ∧
    get_gcs_usage envT = [(chars "b1", 2), (chars "total_gcs_gb", 7)] := by
  constructor
  · intro env
    apply dictGet_mem
    unfold get_gcs_usage
    exact dictGet_dictSet_self _ _ _
  · decide
